import Mathlib

/-! Shallow embedding of the program `temperature_to_midi.py`.

Modelling conventions:
* Python floats are modelled as rationals (`ℚ`); all arithmetic in the claims
  under study is exact at the inputs considered.
* Python exceptions are modelled by `Except PyError`: evaluating `a % 0`
  raises `ZeroDivisionError`, and calling a non-callable object raises
  `TypeError`.
* A CSV cell is modelled as either a numeric value or the `"***"`
  missing-value sentinel (`Cell`); parsing arbitrary strings with `float` is
  out of scope of the claims studied here.
* Writing a MIDI file is modelled by returning a `MidiFile` description of
  the file that `create_midi` would write; a pipeline run returns the list of
  files written.
* Python `%` on integers differs from Lean's `Int.emod` in the sign of the
  result for a negative divisor, but both are zero exactly when the divisor
  divides the dividend, which is the only use made of `%` in the source
  (`sequence_number % step == 0` with `sequence_number ≥ 0`).
-/

namespace TemperatureToMidi

/-- Error kinds observable from the Python source, plus `invalidArgument`,
the structured error named by the specification's error taxonomy (the source
itself never raises it). -/
inductive PyError where
  | typeError
  | zeroDivisionError
  | invalidArgument
  deriving DecidableEq

/-- A CSV cell: either a numeric value or the `"***"` missing-value sentinel. -/
inductive Cell where
  | num (value : ℚ)
  | missing
  deriving DecidableEq

/-- Description of the MIDI file written by `create_midi`. -/
structure MidiFile where
  file_name : String
  notes : List Int
  tempo : Int
  volume : Int
  duration : Int
  deriving DecidableEq

def duration_monthly : Int := 1

def duration_yearly : Int := duration_monthly * 12

def duration_by_decade : Int := duration_yearly * 10

/-- Python `min` over a list (junk value `0` on the empty list, where Python
would raise `ValueError`; every use below carries a non-emptiness hypothesis). -/
def listMin : List ℚ → ℚ
  | [] => 0
  | x :: xs => xs.foldl min x

/-- Python `max` over a list (junk value `0` on the empty list). -/
def listMax : List ℚ → ℚ
  | [] => 0
  | x :: xs => xs.foldl max x

/-- Python `range(a, b)`: the integers `a, a+1, …, b-1` (empty when `b ≤ a`). -/
def pyRange (a b : Int) : List Int :=
  (List.range (b - a).toNat).map (fun (k : Nat) => a + (k : Int))

/-- Inner loop of `convert_sequence`: `for num, i in enumerate(increments)`,
returning `some (num + midi_note_min)` at the first increment `i` with
`t <= i` (the `break`), `none` when the loop falls through. -/
def scan_increments (t : ℚ) (midi_note_min : Int) : List ℚ → Nat → Option Int
  | [], _ => none
  | i :: rest, num =>
    if t ≤ i then some ((num : Int) + midi_note_min)
    else scan_increments t midi_note_min rest (num + 1)

/-- Python `convert_sequence(temperatures, increments, midi_note_min)`: for each
temperature, append the index of the first increment at least as large,
offset by `midi_note_min`; temperatures above every increment contribute
nothing. -/
def convert_sequence (temperatures increments : List ℚ) (midi_note_min : Int) : List Int :=
  match temperatures with
  | [] => []
  | t :: ts =>
    match scan_increments t midi_note_min increments 0 with
    | some v => v :: convert_sequence ts increments midi_note_min
    | none => convert_sequence ts increments midi_note_min

/-- Python `midi_normalization(csv_values, midi_note_min, midi_note_max)`:
thresholds `min + i * increment` for `i in range(midi_note_min, midi_note_max)`
with `increment = (max - min) / (midi_note_max - midi_note_min)`. -/
def midi_normalization (csv_values : List ℚ) (midi_note_min midi_note_max : Int) : List ℚ :=
  let the_range := listMax csv_values - listMin csv_values
  let total_midi_notes := midi_note_max - midi_note_min
  let increment := the_range / (total_midi_notes : ℚ)
  (pyRange midi_note_min midi_note_max).map
    (fun (i : Int) => listMin csv_values + (i : ℚ) * increment)

/-- The numeric content of a cell: `none` for the `"***"` sentinel. -/
def cellValue : Cell → Option ℚ
  | .num x => some x
  | .missing => none

/-- Inner loop of `read_history`: `for column_number, column in enumerate(row)`,
keeping values of non-sentinel cells whose index satisfies
`1 <= column_number < 14`. -/
def read_row : List Cell → Nat → List ℚ
  | [], _ => []
  | c :: rest, column_number =>
    (if 1 ≤ column_number ∧ column_number < 14 then
      match cellValue c with
      | some x => [x]
      | none => []
    else []) ++ read_row rest (column_number + 1)

/-- Outer loop of `read_history`: `for row_number, row in enumerate(reader)`,
processing rows with `row_number > 1`. -/
def read_rows : List (List Cell) → Nat → List ℚ
  | [], _ => []
  | row :: rest, row_number =>
    (if row_number > 1 then read_row row 0 else []) ++ read_rows rest (row_number + 1)

/-- Python `read_history(file_name)`, applied to the parsed rows of the CSV file. -/
def read_history (rows : List (List Cell)) : List ℚ :=
  read_rows rows 0

/-- Python `get_list_average(list_to_average) = sum(...) / len(...)` (in ℚ, `x / 0 = 0`
on the empty list, where Python would raise; `step_average` never averages an
empty buffer). -/
def get_list_average (list_to_average : List ℚ) : ℚ :=
  list_to_average.sum / (list_to_average.length : ℚ)

/-- Loop of `step_average`: flush the buffer `step_sequence` into
`stepped_sequence` at every index `sequence_number` with
`sequence_number % step == 0 and sequence_number != 0`, then append the
current item to the buffer. -/
def step_average_go (step : Int) : List ℚ → Nat → List ℚ → List ℚ → List ℚ
  | [], _, stepped_sequence, _ => stepped_sequence
  | x :: xs, sequence_number, stepped_sequence, step_sequence =>
    if (sequence_number : Int) % step = 0 ∧ sequence_number ≠ 0 then
      step_average_go step xs (sequence_number + 1)
        (stepped_sequence ++ [get_list_average step_sequence]) [x]
    else
      step_average_go step xs (sequence_number + 1) stepped_sequence (step_sequence ++ [x])

/-- Python `step_average(sequence, step)`. Evaluating `sequence_number % step` with
`step == 0` raises `ZeroDivisionError` at the first loop iteration, so the
call fails exactly when `step = 0` and the sequence is non-empty (on the
empty sequence the loop body never runs). -/
def step_average (sequence : List ℚ) (step : Int) : Except PyError (List ℚ) :=
  if step = 0 ∧ sequence ≠ [] then .error .zeroDivisionError
  else .ok (step_average_go step sequence 0 [] [])

/-- Python `create_midi(sequence, tempo, volume, file_name, duration)`: the file it
writes, as data. -/
def create_midi (sequence : List Int) (tempo volume : Int) (file_name : String)
    (duration : Int) : MidiFile :=
  ⟨file_name, sequence, tempo, volume, duration⟩

/-- Type of the four mode functions: parsed CSV rows, output base name, bpm,
volume, lowest and highest MIDI note, returning the files written. -/
abbrev ModeFn :=
  List (List Cell) → String → Int → Int → Int → Int → Except PyError (List MidiFile)

/-- Python `create_monthly_sequence`. -/
def create_monthly_sequence : ModeFn :=
  fun temperature_data output_midi_file_name bpm volume midi_note_min midi_note_max =>
    let temperature_history := read_history temperature_data
    let new_increments := midi_normalization temperature_history midi_note_min midi_note_max
    let sequence := convert_sequence temperature_history new_increments midi_note_min
    .ok [create_midi sequence bpm volume (output_midi_file_name ++ "_monthly.mid")
      duration_monthly]

/-- Python `create_yearly_sequence`. -/
def create_yearly_sequence : ModeFn :=
  fun temperature_data output_midi_file_name bpm volume midi_note_min midi_note_max =>
    let temperature_history := read_history temperature_data
    match step_average temperature_history duration_yearly with
    | .error e => .error e
    | .ok yearly_history =>
      let new_increments := midi_normalization yearly_history midi_note_min midi_note_max
      let sequence := convert_sequence yearly_history new_increments midi_note_min
      .ok [create_midi sequence bpm volume (output_midi_file_name ++ "_yearly.mid")
        duration_yearly]

/-- Python `create_decade_sequence`. -/
def create_decade_sequence : ModeFn :=
  fun temperature_data output_midi_file_name bpm volume midi_note_min midi_note_max =>
    let temperature_history := read_history temperature_data
    match step_average temperature_history duration_by_decade with
    | .error e => .error e
    | .ok decade_history =>
      let new_increments := midi_normalization decade_history midi_note_min midi_note_max
      let sequence := convert_sequence decade_history new_increments midi_note_min
      .ok [create_midi sequence bpm volume (output_midi_file_name ++ "_decade.mid")
        duration_by_decade]

/-- Python `create_all_sequences`: monthly, yearly and decade in order; a failure
aborts the remaining resolutions. -/
def create_all_sequences : ModeFn :=
  fun temperature_data output_midi_file_name bpm volume midi_note_min midi_note_max =>
    match create_monthly_sequence temperature_data output_midi_file_name bpm volume
        midi_note_min midi_note_max with
    | .error e => .error e
    | .ok monthly_files =>
      match create_yearly_sequence temperature_data output_midi_file_name bpm volume
          midi_note_min midi_note_max with
      | .error e => .error e
      | .ok yearly_files =>
        match create_decade_sequence temperature_data output_midi_file_name bpm volume
            midi_note_min midi_note_max with
        | .error e => .error e
        | .ok decade_files => .ok (monthly_files ++ yearly_files ++ decade_files)

/-- The `mode_switch` dictionary: `dict.get` returns `none` (the non-callable
`"invalid mode"` sentinel in the source) for an unknown key. -/
def mode_switch (mode : Int) : Option ModeFn :=
  if mode = 0 then some create_monthly_sequence
  else if mode = 1 then some create_yearly_sequence
  else if mode = 2 then some create_decade_sequence
  else if mode = 3 then some create_all_sequences
  else none

/-- Python `set_mode(mode, ...)`: look the mode up in `mode_switch` and call the
result. When the lookup misses, the source calls the string sentinel
`"invalid mode"`, which raises `TypeError` before anything is written. -/
def set_mode (mode : Int) (temperature_data : List (List Cell))
    (output_midi_file_name : String) (bpm volume midi_note_min midi_note_max : Int) :
    Except PyError (List MidiFile) :=
  match mode_switch mode with
  | some func => func temperature_data output_midi_file_name bpm volume
      midi_note_min midi_note_max
  | none => .error .typeError

end TemperatureToMidi

namespace TemperatureToMidi

lemma scan_increments_eq_none (t : ℚ) (mn : Int) :
    ∀ (incs : List ℚ) (k : Nat), (∀ i ∈ incs, i < t) → scan_increments t mn incs k = none := by
  intro incs
  induction incs with
  | nil => intro k _; rfl
  | cons i rest ih =>
    intro k h
    have hi : i < t := h i (List.mem_cons_self i rest)
    simp only [scan_increments, if_neg (not_le.mpr hi)]
    exact ih (k + 1) (fun x hx => h x (List.mem_cons_of_mem i hx))

lemma scan_increments_eq_some (t : ℚ) (mn : Int) :
    ∀ (incs : List ℚ) (n k : Nat), n < incs.length → t ≤ incs.getD n 0 →
      (∀ m : Nat, m < n → incs.getD m 0 < t) →
      scan_increments t mn incs k = some (((k + n : Nat) : Int) + mn) := by
  intro incs
  induction incs with
  | nil => intro n k hn _ _; simp at hn
  | cons i rest ih =>
    intro n k hn hle hlt
    cases n with
    | zero =>
      rw [List.getD_cons_zero] at hle
      simp only [scan_increments, if_pos hle, Nat.add_zero]
    | succ n' =>
      have hi : i < t := by
        have := hlt 0 (Nat.succ_pos n')
        rwa [List.getD_cons_zero] at this
      simp only [scan_increments, if_neg (not_le.mpr hi)]
      have hrec := ih n' (k + 1) (by simpa using hn) (by simpa using hle)
        (fun m hm => by
          have := hlt (m + 1) (Nat.succ_lt_succ hm)
          rwa [List.getD_cons_succ] at this)
      rw [hrec]
      congr 1
      push_cast
      ring

lemma scan_increments_bounds (t : ℚ) (mn : Int) :
    ∀ (incs : List ℚ) (k : Nat) (v : Int), scan_increments t mn incs k = some v →
      (k : Int) + mn ≤ v ∧ v < ((k + incs.length : Nat) : Int) + mn := by
  intro incs
  induction incs with
  | nil => intro k v h; simp [scan_increments] at h
  | cons i rest ih =>
    intro k v h
    simp only [scan_increments] at h
    by_cases hti : t ≤ i
    · rw [if_pos hti] at h
      cases h
      constructor
      · exact le_refl _
      · simp only [List.length_cons]
        push_cast
        omega
    · rw [if_neg hti] at h
      have hrec := ih (k + 1) v h
      simp only [List.length_cons]
      push_cast at hrec ⊢
      omega

lemma convert_sequence_mem_bounds (incs : List ℚ) (mn mx : Int)
    (hlen : (incs.length : Int) = mx - mn) :
    ∀ (ts : List ℚ) (x : Int), x ∈ convert_sequence ts incs mn → mn ≤ x ∧ x ≤ mx := by
  intro ts
  induction ts with
  | nil => intro x hx; simp [convert_sequence] at hx
  | cons t ts ih =>
    intro x hx
    simp only [convert_sequence] at hx
    cases hscan : scan_increments t mn incs 0 with
    | none => rw [hscan] at hx; exact ih x hx
    | some v =>
      rw [hscan] at hx
      rcases List.mem_cons.mp hx with rfl | hmem
      · have hb := scan_increments_bounds t mn incs 0 x hscan
        push_cast at hb
        omega
      · exact ih x hmem

/-- Claim C5: `convert_sequence` maps a value to (position of the first threshold at least
as large as the value) + minIndex, with ties going to the lower index via the `<=`
comparison; a value exceeding every threshold produces no output element; and every
emitted index lies in [minIndex, maxIndex] when the threshold list has
maxIndex - minIndex entries. -/
theorem convert_sequence_spec (ts incs : List ℚ) (mn mx : Int) (t : ℚ) :
    ((∀ i ∈ incs, i < t) → convert_sequence (t :: ts) incs mn = convert_sequence ts incs mn) ∧
    (∀ n : Nat, n < incs.length → t ≤ incs.getD n 0 →
      (∀ m : Nat, m < n → incs.getD m 0 < t) →
      convert_sequence (t :: ts) incs mn = ((n : Int) + mn) :: convert_sequence ts incs mn) ∧
    (((incs.length : Int) = mx - mn) →
      ∀ x ∈ convert_sequence ts incs mn, mn ≤ x ∧ x ≤ mx) := by
  refine ⟨?_, ?_, ?_⟩
  · intro h
    simp only [convert_sequence, scan_increments_eq_none t mn incs 0 h]
  · intro n hn hle hlt
    have hscan := scan_increments_eq_some t mn incs n 0 hn hle hlt
    simp only [convert_sequence, hscan, Nat.zero_add]
  · intro hlen x hx
    exact convert_sequence_mem_bounds incs mn mx hlen ts x hx

end TemperatureToMidi

namespace TemperatureToMidi

lemma foldl_min_const (c : ℚ) : ∀ xs : List ℚ, (∀ y ∈ xs, y = c) → xs.foldl min c = c := by
  intro xs
  induction xs with
  | nil => intro _; rfl
  | cons x rest ih =>
    intro h
    have hx : x = c := h x (List.mem_cons_self x rest)
    simp only [List.foldl_cons, hx, min_self]
    exact ih (fun y hy => h y (List.mem_cons_of_mem x hy))

lemma foldl_max_const (c : ℚ) : ∀ xs : List ℚ, (∀ y ∈ xs, y = c) → xs.foldl max c = c := by
  intro xs
  induction xs with
  | nil => intro _; rfl
  | cons x rest ih =>
    intro h
    have hx : x = c := h x (List.mem_cons_self x rest)
    simp only [List.foldl_cons, hx, max_self]
    exact ih (fun y hy => h y (List.mem_cons_of_mem x hy))

lemma listMin_const (vs : List ℚ) (c : ℚ) (hvs : vs ≠ []) (h : ∀ x ∈ vs, x = c) :
    listMin vs = c := by
  cases vs with
  | nil => exact absurd rfl hvs
  | cons x xs =>
    have hx : x = c := h x (List.mem_cons_self x xs)
    simp only [listMin, hx]
    exact foldl_min_const c xs (fun y hy => h y (List.mem_cons_of_mem x hy))

lemma listMax_const (vs : List ℚ) (c : ℚ) (hvs : vs ≠ []) (h : ∀ x ∈ vs, x = c) :
    listMax vs = c := by
  cases vs with
  | nil => exact absurd rfl hvs
  | cons x xs =>
    have hx : x = c := h x (List.mem_cons_self x xs)
    simp only [listMax, hx]
    exact foldl_max_const c xs (fun y hy => h y (List.mem_cons_of_mem x hy))

lemma pyRange_length (a b : Int) : (pyRange a b).length = (b - a).toNat := by
  unfold pyRange
  rw [List.length_map, List.length_range]

lemma pyRange_getElem? (a b : Int) (k : Nat) (hk : k < (b - a).toNat) :
    (pyRange a b)[k]? = some (a + (k : Int)) := by
  unfold pyRange
  rw [List.getElem?_map, List.getElem?_range hk]
  rfl

lemma midi_normalization_length (vs : List ℚ) (mn mx : Int) :
    (midi_normalization vs mn mx).length = (mx - mn).toNat := by
  simp only [midi_normalization]
  rw [List.length_map, pyRange_length]

lemma midi_normalization_getD (vs : List ℚ) (mn mx : Int) (k : Nat)
    (hk : k < (mx - mn).toNat) :
    (midi_normalization vs mn mx).getD k 0 =
      listMin vs + ((mn : ℚ) + (k : ℚ)) * ((listMax vs - listMin vs) / ((mx - mn : Int) : ℚ)) := by
  simp only [midi_normalization]
  rw [List.getD_eq_getElem?_getD, List.getElem?_map, pyRange_getElem? mn mx k hk,
    Option.map_some', Option.getD_some]
  push_cast
  ring

end TemperatureToMidi

namespace TemperatureToMidi

/-- Claim C4: for every non-empty values list and minIndex < maxIndex, `midi_normalization`
returns exactly maxIndex - minIndex thresholds; the k-th is
min(values) + (minIndex + k) * increment with
increment = (max(values) - min(values)) / (maxIndex - minIndex); the thresholds are
strictly ascending (pairwise, by index) when increment > 0, and all equal min(values)
when every input value is equal. -/
theorem midi_normalization_spec (vs : List ℚ) (mn mx : Int) (hvs : vs ≠ []) (h : mn < mx) :
    (midi_normalization vs mn mx).length = (mx - mn).toNat ∧
    (∀ k : Nat, k < (mx - mn).toNat →
      (midi_normalization vs mn mx).getD k 0 =
        listMin vs + ((mn : ℚ) + (k : ℚ)) *
          ((listMax vs - listMin vs) / ((mx - mn : Int) : ℚ))) ∧
    (0 < (listMax vs - listMin vs) / ((mx - mn : Int) : ℚ) →
      ∀ j k : Nat, j < k → k < (mx - mn).toNat →
        (midi_normalization vs mn mx).getD j 0 < (midi_normalization vs mn mx).getD k 0) ∧
    ((∀ x ∈ vs, x = listMin vs) → ∀ q ∈ midi_normalization vs mn mx, q = listMin vs) := by
  refine ⟨midi_normalization_length vs mn mx, midi_normalization_getD vs mn mx, ?_, ?_⟩
  · intro hinc j k hjk hk
    rw [midi_normalization_getD vs mn mx j (lt_trans hjk hk),
      midi_normalization_getD vs mn mx k hk]
    have hcast : (j : ℚ) < (k : ℚ) := by exact_mod_cast hjk
    have hq : ((mn : ℚ) + (j : ℚ)) < ((mn : ℚ) + (k : ℚ)) := by linarith
    have := mul_lt_mul_of_pos_right hq hinc
    linarith
  · intro hconst q hq
    have hmax : listMax vs = listMin vs := listMax_const vs (listMin vs) hvs hconst
    simp only [midi_normalization] at hq
    obtain ⟨i, hi, rfl⟩ := List.mem_map.mp hq
    rw [hmax]
    simp

/-- Witness for claim C4's theorem at the concrete input `[10, 20, 30]`, 0, 2. -/
theorem midi_normalization_spec_witness :
    (midi_normalization [10, 20, 30] 0 2).length = ((2 : Int) - 0).toNat ∧
    (midi_normalization [10, 20, 30] 0 2).getD 1 0 =
      listMin [10, 20, 30] + ((0 : ℚ) + (1 : ℚ)) *
        ((listMax [10, 20, 30] - listMin [10, 20, 30]) / (((2 : Int) - (0 : Int) : Int) : ℚ)) ∧
    (midi_normalization [10, 20, 30] 0 2).getD 0 0 <
      (midi_normalization [10, 20, 30] 0 2).getD 1 0 := by
  obtain ⟨h1, h2, h3, h4⟩ := midi_normalization_spec [10, 20, 30] 0 2 (by simp) (by norm_num)
  refine ⟨h1, h2 1 (by norm_num), h3 ?_ 0 1 (by norm_num) (by norm_num)⟩
  rw [show listMax [10, 20, 30] = 30 from by norm_num [listMax],
    show listMin [10, 20, 30] = 10 from by norm_num [listMin]]
  norm_num

end TemperatureToMidi

namespace TemperatureToMidi

lemma mem_pyRange (a b i : Int) : i ∈ pyRange a b ↔ a ≤ i ∧ i < b := by
  unfold pyRange
  simp only [List.mem_map, List.mem_range]
  constructor
  · rintro ⟨k, hk, rfl⟩
    omega
  · rintro ⟨h1, h2⟩
    exact ⟨(i - a).toNat, by omega, by omega⟩

lemma convert_sequence_cons (t : ℚ) (ts incs : List ℚ) (mn : Int) :
    convert_sequence (t :: ts) incs mn =
      match scan_increments t mn incs 0 with
      | some v => v :: convert_sequence ts incs mn
      | none => convert_sequence ts incs mn := rfl

lemma convert_sequence_drop_of_gt (v : ℚ) (incs : List ℚ) (mn : Int)
    (h : ∀ i ∈ incs, i < v) :
    ∀ (pre suf : List ℚ),
      convert_sequence (pre ++ v :: suf) incs mn = convert_sequence (pre ++ suf) incs mn := by
  intro pre
  induction pre with
  | nil =>
    intro suf
    rw [List.nil_append, List.nil_append, convert_sequence_cons,
      scan_increments_eq_none v mn incs 0 h]
  | cons p pre ih =>
    intro suf
    rw [List.cons_append, List.cons_append, convert_sequence_cons, convert_sequence_cons]
    cases hscan : scan_increments p mn incs 0 with
    | none => simp only [hscan]; exact ih suf
    | some w => simp only [hscan]; rw [ih suf]

/-- Claim C10: for a non-empty, non-constant values list with minIndex 0 and maxIndex > 0,
the largest threshold produced by `midi_normalization` equals
min + (maxIndex - 1) * increment, which is strictly below the maximum value;
consequently `convert_sequence` emits no output element at any position holding the
maximum value, structurally, for every such input. -/
theorem midi_normalization_max_dropped (vs : List ℚ) (mx : Int) (hvs : vs ≠ [])
    (hmx : 0 < mx) (hne : listMin vs < listMax vs) :
    (listMin vs + ((mx : ℚ) - 1) * ((listMax vs - listMin vs) / (mx : ℚ))
        ∈ midi_normalization vs 0 mx) ∧
    (∀ q ∈ midi_normalization vs 0 mx,
      q ≤ listMin vs + ((mx : ℚ) - 1) * ((listMax vs - listMin vs) / (mx : ℚ))) ∧
    (listMin vs + ((mx : ℚ) - 1) * ((listMax vs - listMin vs) / (mx : ℚ))
        < listMax vs) ∧
    (∀ pre suf : List ℚ,
      convert_sequence (pre ++ listMax vs :: suf) (midi_normalization vs 0 mx) 0 =
        convert_sequence (pre ++ suf) (midi_normalization vs 0 mx) 0) := by
  have hmxQ : (0 : ℚ) < (mx : ℚ) := by exact_mod_cast hmx
  have hinc : 0 < (listMax vs - listMin vs) / (mx : ℚ) := div_pos (by linarith) hmxQ
  have hunfold : midi_normalization vs 0 mx =
      (pyRange 0 mx).map
        (fun (i : Int) => listMin vs + (i : ℚ) * ((listMax vs - listMin vs) / (mx : ℚ))) := by
    simp only [midi_normalization, sub_zero]
  have hmem : listMin vs + ((mx : ℚ) - 1) * ((listMax vs - listMin vs) / (mx : ℚ))
      ∈ midi_normalization vs 0 mx := by
    rw [hunfold]
    refine List.mem_map.mpr ⟨mx - 1, (mem_pyRange 0 mx (mx - 1)).mpr ⟨by omega, by omega⟩, ?_⟩
    push_cast
    ring
  have hub : ∀ q ∈ midi_normalization vs 0 mx,
      q ≤ listMin vs + ((mx : ℚ) - 1) * ((listMax vs - listMin vs) / (mx : ℚ)) := by
    intro q hq
    rw [hunfold] at hq
    obtain ⟨i, hi, rfl⟩ := List.mem_map.mp hq
    obtain ⟨hi0, hilt⟩ := (mem_pyRange 0 mx i).mp hi
    have hile : (i : ℚ) ≤ (mx : ℚ) - 1 := by
      have h' : i ≤ mx - 1 := by omega
      exact_mod_cast h'
    have := mul_le_mul_of_nonneg_right hile (le_of_lt hinc)
    linarith
  have hlt : listMin vs + ((mx : ℚ) - 1) * ((listMax vs - listMin vs) / (mx : ℚ))
      < listMax vs := by
    have hid : (mx : ℚ) * ((listMax vs - listMin vs) / (mx : ℚ)) =
        listMax vs - listMin vs := by
      field_simp
    have hmul : ((mx : ℚ) - 1) * ((listMax vs - listMin vs) / (mx : ℚ)) <
        (mx : ℚ) * ((listMax vs - listMin vs) / (mx : ℚ)) :=
      mul_lt_mul_of_pos_right (by linarith) hinc
    linarith
  refine ⟨hmem, hub, hlt, ?_⟩
  intro pre suf
  exact convert_sequence_drop_of_gt (listMax vs) (midi_normalization vs 0 mx) 0
    (fun q hq => lt_of_le_of_lt (hub q hq) hlt) pre suf

/-- Witness for claim C10's theorem at the concrete input `[10, 20, 30]`, maxIndex 2. -/
theorem midi_normalization_max_dropped_witness :
    (listMin [10, 20, 30] + ((2 : ℚ) - 1) *
        ((listMax [10, 20, 30] - listMin [10, 20, 30]) / ((2 : Int) : ℚ)) < listMax [10, 20, 30]) ∧
    convert_sequence ([10] ++ listMax [10, 20, 30] :: [20])
        (midi_normalization [10, 20, 30] 0 2) 0 =
      convert_sequence ([10] ++ [20]) (midi_normalization [10, 20, 30] 0 2) 0 := by
  obtain ⟨h1, h2, h3, h4⟩ := midi_normalization_max_dropped [10, 20, 30] 2 (by simp)
    (by norm_num) (by norm_num [listMin, listMax])
  exact ⟨h3, h4 [10] [20]⟩

end TemperatureToMidi

namespace TemperatureToMidi

lemma step_average_go_neg (step : Int) (hstep : step < 0) :
    ∀ (xs : List ℚ) (i : Nat) (acc cur : List ℚ),
      step_average_go step xs i acc cur = step_average_go (-step) xs i acc cur := by
  intro xs
  induction xs with
  | nil => intro i acc cur; rfl
  | cons x xs ih =>
    intro i acc cur
    simp only [step_average_go, Int.emod_neg]
    by_cases hc : (i : Int) % step = 0 ∧ i ≠ 0
    · rw [if_pos hc, if_pos hc, ih]
    · rw [if_neg hc, if_neg hc, ih]

/-- Claim C7 (amended): `step_average` performs no step validation. A negative step
behaves exactly like its absolute value; step 0 fails with ZeroDivisionError on a
non-empty sequence (the loop evaluates the modulus at its first iteration); and step 0
on the empty sequence returns the empty list without failing. -/
theorem step_average_no_validation (s : List ℚ) (step : Int) :
    (step < 0 → step_average s step = step_average s (-step)) ∧
    (s ≠ [] → step_average s 0 = .error .zeroDivisionError) ∧
    step_average ([] : List ℚ) 0 = .ok [] := by
  refine ⟨?_, ?_, rfl⟩
  · intro hstep
    unfold step_average
    have h1 : ¬ (step = 0 ∧ s ≠ []) := by rintro ⟨rfl, -⟩; omega
    have h2 : ¬ (-step = 0 ∧ s ≠ []) := by rintro ⟨h0, -⟩; omega
    rw [if_neg h1, if_neg h2, step_average_go_neg step hstep]
  · intro hs
    unfold step_average
    rw [if_pos ⟨rfl, hs⟩]

/-- Witness for claim C7's amended theorem at concrete inputs. -/
theorem step_average_no_validation_witness :
    step_average [(1 : ℚ), 2, 3, 4] (-2) = step_average [(1 : ℚ), 2, 3, 4] 2 ∧
    step_average [(1 : ℚ)] 0 = .error .zeroDivisionError := by
  refine ⟨?_, ?_⟩
  · have h := (step_average_no_validation [(1 : ℚ), 2, 3, 4] (-2)).1 (by norm_num)
    simpa using h
  · exact (step_average_no_validation [(1 : ℚ)] 0).2.1 (by simp)

/-- Claim C7 counterexample: with the non-positive step -2 on `[1, 2, 3, 4]`,
`step_average` does not fail at all: it succeeds with `[3/2]`. -/
theorem step_average_negative_step_no_error :
    step_average [(1 : ℚ), 2, 3, 4] (-2) = .ok [3 / 2] := by
  norm_num [step_average, step_average_go, get_list_average]

end TemperatureToMidi

namespace TemperatureToMidi

lemma step_average_go_length (step : Int) :
    ∀ (xs : List ℚ) (i : Nat) (acc cur : List ℚ),
      (step_average_go step xs i acc cur).length =
        acc.length + (List.range' i xs.length).countP
          (fun (j : Nat) => decide ((j : Int) % step = 0 ∧ j ≠ 0)) := by
  intro xs
  induction xs with
  | nil => intro i acc cur; simp [step_average_go]
  | cons x xs ih =>
    intro i acc cur
    simp only [step_average_go, List.length_cons, List.range'_succ, List.countP_cons]
    by_cases hc : (i : Int) % step = 0 ∧ i ≠ 0
    · rw [if_pos hc, ih]
      simp only [List.length_append, List.length_cons, List.length_nil, decide_eq_true_eq]
      rw [if_pos hc]
      omega
    · rw [if_neg hc, ih]
      simp only [decide_eq_true_eq]
      rw [if_neg hc]
      omega

lemma countP_range_multiples (sp : Int) (hsp : 1 ≤ sp) :
    ∀ n : Nat, (List.range n).countP
        (fun (j : Nat) => decide (((j : Int) % sp = 0) ∧ j ≠ 0)) = (n - 1) / sp.toNat := by
  intro n
  induction n with
  | zero => simp
  | succ m ih =>
    rw [List.range_succ, List.countP_append, ih]
    simp only [List.countP_cons, List.countP_nil, decide_eq_true_eq, Nat.zero_add]
    have hiff : (((m : Int) % sp = 0) ∧ m ≠ 0) ↔ (sp.toNat ∣ m ∧ m ≠ 0) := by
      constructor
      · rintro ⟨hmod, hm0⟩
        refine ⟨?_, hm0⟩
        have hdvd : sp ∣ (m : Int) := Int.dvd_iff_emod_eq_zero.mpr hmod
        have hdvd2 : ((sp.toNat : Nat) : Int) ∣ ((m : Nat) : Int) := by
          rwa [Int.toNat_of_nonneg (by omega : (0 : Int) ≤ sp)]
        exact_mod_cast hdvd2
      · rintro ⟨hdvd, hm0⟩
        refine ⟨?_, hm0⟩
        have hdvd2 : ((sp.toNat : Nat) : Int) ∣ ((m : Nat) : Int) :=
          Int.natCast_dvd_natCast.mpr hdvd
        rw [Int.toNat_of_nonneg (by omega : (0 : Int) ≤ sp)] at hdvd2
        exact Int.dvd_iff_emod_eq_zero.mp hdvd2
    rcases Nat.eq_zero_or_pos m with rfl | hmpos
    · norm_num
    · have hm0 : m ≠ 0 := by omega
      obtain ⟨m', rfl⟩ : ∃ m', m = m' + 1 := ⟨m - 1, by omega⟩
      simp only [Nat.add_sub_cancel]
      by_cases hd : sp.toNat ∣ (m' + 1)
      · rw [if_pos (hiff.mpr ⟨hd, hm0⟩), Nat.succ_div, if_pos hd]
      · rw [if_neg (fun hc => hd (hiff.mp hc).1), Nat.succ_div, if_neg hd]

/-- Claim C9: for every step >= 1, `step_average` succeeds and its result has length
(length of the input - 1) / step (integer division, 0 on the empty list): a window's
mean is emitted only when a later element reaches the start of the next window, so the
last window started - even when complete - is never emitted. -/
theorem step_average_length (s : List ℚ) (step : Int) (h : 1 ≤ step) :
    ∃ out, step_average s step = .ok out ∧ out.length = (s.length - 1) / step.toNat := by
  have hno : ¬ (step = 0 ∧ s ≠ []) := by rintro ⟨rfl, -⟩; omega
  refine ⟨step_average_go step s 0 [] [], ?_, ?_⟩
  · unfold step_average
    rw [if_neg hno]
  · rw [step_average_go_length step s 0 [] [], List.length_nil, Nat.zero_add,
      show List.range' 0 s.length = List.range s.length from
        (List.range_eq_range' s.length).symm]
    exact countP_range_multiples step h s.length

/-- Witness for claim C9's theorem at a concrete input. -/
theorem step_average_length_witness :
    (step_average [(1 : ℚ), 2, 3] 2).toOption.map List.length =
      some (([(1 : ℚ), 2, 3].length - 1) / (2 : Int).toNat) := by
  obtain ⟨out, h1, h2⟩ := step_average_length [(1 : ℚ), 2, 3] 2 (by norm_num)
  rw [h1, ← h2]
  rfl

end TemperatureToMidi

namespace TemperatureToMidi

lemma read_row_eq (cells : List Cell) : ∀ k : Nat,
    read_row cells k = ((cells.take (14 - k)).drop (1 - k)).filterMap cellValue := by
  induction cells with
  | nil => intro k; simp [read_row]
  | cons c rest ih =>
    intro k
    simp only [read_row]
    rcases Nat.lt_or_ge k 14 with hk14 | hk14
    · rcases Nat.eq_zero_or_pos k with rfl | hk1
      · rw [if_neg (by omega), ih 1,
          show (14 : Nat) - 0 = 13 + 1 from rfl, List.take_succ_cons,
          show (1 : Nat) - 0 = 0 + 1 from rfl, List.drop_succ_cons,
          show (14 : Nat) - 1 = 13 from rfl, show (1 : Nat) - 1 = 0 from rfl]
        simp
      · rw [if_pos ⟨hk1, hk14⟩, ih (k + 1),
          show (14 : Nat) - k = (13 - k) + 1 from by omega, List.take_succ_cons,
          show (1 : Nat) - k = 0 from by omega, List.drop_zero,
          show (14 : Nat) - (k + 1) = 13 - k from by omega,
          show (1 : Nat) - (k + 1) = 0 from by omega, List.drop_zero]
        cases c with
        | num x => simp [cellValue, List.filterMap_cons]
        | missing => simp [cellValue, List.filterMap_cons]
    · rw [if_neg (by omega), ih (k + 1),
        show (14 : Nat) - k = 0 from by omega, show (14 : Nat) - (k + 1) = 0 from by omega]
      simp

lemma read_rows_of_ge_two (rows : List (List Cell)) : ∀ n : Nat, 2 ≤ n →
    read_rows rows n =
      (rows.map (fun r => ((r.take 14).drop 1).filterMap cellValue)).flatten := by
  induction rows with
  | nil => intro n _; rfl
  | cons r rest ih =>
    intro n hn
    simp only [read_rows, List.map_cons, List.flatten_cons]
    rw [if_pos (by omega), ih (n + 1) (by omega), read_row_eq r 0,
      show (14 : Nat) - 0 = 14 from rfl, show (1 : Nat) - 0 = 1 from rfl]

/-- Claim C8: `read_history` skips the first two rows and, for each subsequent row in
row order, appends the numeric values of exactly those cells that are not the
missing-value sentinel and whose column index lies in the window 1 <= index < 14
(columns 1..13, 0-indexed), in column order within each row. -/
theorem read_history_spec (rows : List (List Cell)) :
    read_history rows =
      ((rows.drop 2).map (fun r => ((r.take 14).drop 1).filterMap cellValue)).flatten := by
  cases rows with
  | nil => rfl
  | cons r0 rest =>
    cases rest with
    | nil => rfl
    | cons r1 rest2 =>
      show read_rows (r0 :: r1 :: rest2) 0 = _
      simp only [read_rows]
      rw [if_neg (by omega), if_neg (by omega), read_rows_of_ge_two rest2 2 (le_refl 2)]
      simp

end TemperatureToMidi

namespace TemperatureToMidi

lemma midi_normalization_eval : midi_normalization [10, 20, 30] 0 2 = [10, 20] := by
  simp only [midi_normalization]
  have h : pyRange 0 2 = [0, 1] := by decide
  rw [h]
  norm_num [listMin, listMax]

lemma convert_sequence_eval : convert_sequence [(10 : ℚ), 20, 30] [10, 20] 0 = [0, 1] := by
  norm_num [convert_sequence, scan_increments]

/-- Claim C1 (evaluation at the failing input): on `[1,2,3,4,5,6,7,8]` with step 4,
`step_average` returns only `[5/2]`: a window is flushed only when the loop index
reaches the start of the next window, so the final complete window `[5,6,7,8]` is
never emitted, contradicting the claimed `[2.5, 6.5]` and the source's own docstring
example, which shows two windows for this input. -/
theorem step_average_window_scenario_eval :
    step_average [(1 : ℚ), 2, 3, 4, 5, 6, 7, 8] 4 = .ok [5 / 2] := by
  norm_num [step_average, step_average_go, get_list_average]

/-- Claim C2 (evaluation at the failing input): `step_average` with step 1 is not the
identity: on `[1, 2]` it returns `[1]`, dropping the final element, for the same
off-by-one reason as in claim C1. -/
theorem step_average_step_one_eval :
    step_average [(1 : ℚ), 2] 1 = .ok [1] := by
  norm_num [step_average, step_average_go, get_list_average]

/-- Claim C3 counterexample: for values `[10, 20, 30]` with minIndex 0 and maxIndex 2,
the threshold table is `[10, 20]`, not `[20, 30]` as the claim states. -/
theorem midi_normalization_scenario_cex : midi_normalization [10, 20, 30] 0 2 ≠ [20, 30] := by
  rw [midi_normalization_eval]
  simp only [ne_eq, List.cons.injEq]
  norm_num

/-- Claim C3 (amended): for values `[10, 20, 30]` with minIndex 0 and maxIndex 2,
`midi_normalization` produces the threshold table `[10, 20]` (the loop offset starts
at minIndex itself) and `convert_sequence` then produces `[0, 1]`: the maximum value
30 exceeds every threshold and yields no output element. -/
theorem midi_normalization_scenario_actual :
    midi_normalization [10, 20, 30] 0 2 = [10, 20] ∧
    convert_sequence [10, 20, 30] (midi_normalization [10, 20, 30] 0 2) 0 = [0, 1] := by
  refine ⟨midi_normalization_eval, ?_⟩
  rw [midi_normalization_eval]
  exact convert_sequence_eval

/-- Claim C6 counterexample: calling `set_mode` with the unrecognized selector 5 does
not fail with the specification's structured InvalidArgument error. -/
theorem set_mode_invalid_cex :
    set_mode 5 [] "just_warming_up" 120 100 0 127 ≠ Except.error PyError.invalidArgument := by
  simp [set_mode, mode_switch]

/-- Claim C6 (amended): an unrecognized mode selector makes `set_mode` fail with a
TypeError - the dictionary lookup returns the non-callable string sentinel, which the
source then calls - and no output file is written (the error carries no written
files). -/
theorem set_mode_invalid_raises_type_error (mode : Int) (h0 : mode ≠ 0) (h1 : mode ≠ 1)
    (h2 : mode ≠ 2) (h3 : mode ≠ 3) (temperature_data : List (List Cell)) (out : String)
    (bpm volume mn mx : Int) :
    set_mode mode temperature_data out bpm volume mn mx = .error .typeError := by
  simp [set_mode, mode_switch, h0, h1, h2, h3]

/-- Witness for claim C6's amended theorem at the concrete selector 5. -/
theorem set_mode_invalid_raises_type_error_witness :
    set_mode 5 [] "just_warming_up" 120 100 0 127 = .error .typeError :=
  set_mode_invalid_raises_type_error 5 (by norm_num) (by norm_num) (by norm_num) (by norm_num)
    [] "just_warming_up" 120 100 0 127

/-- Witness for claim C5's theorem at concrete inputs, exercising all three parts. -/
theorem convert_sequence_spec_witness :
    convert_sequence [(30 : ℚ)] [10, 20] 0 = convert_sequence [] [10, 20] 0 ∧
    convert_sequence [(20 : ℚ), 5] [10, 20] 0 =
      ((1 : Int) + 0) :: convert_sequence [5] [10, 20] 0 ∧
    ((0 : Int) ≤ 1 ∧ (1 : Int) ≤ 2) := by
  refine ⟨?_, ?_, ?_⟩
  · exact (convert_sequence_spec [] [10, 20] 0 2 30).1 (by norm_num)
  · exact (convert_sequence_spec [5] [10, 20] 0 2 20).2.1 1 (by norm_num) (by norm_num)
      (by intro m hm; interval_cases m; norm_num)
  · exact (convert_sequence_spec [10, 20, 30] [10, 20] 0 2 0).2.2 (by norm_num) 1
      (by rw [convert_sequence_eval]; norm_num)

end TemperatureToMidi
